import Mathlib

/-!
Shallow embedding of `plain-text-db-rust` (src/main.rs): an in-process
key-value store organized as named tables of named fields, each field holding
an opaque byte sequence produced by serializing a caller-chosen typed value
(the Rust code uses `rmp_serde`, a MessagePack implementation).

The Rust namespace `HashMap<String, HashMap<String, Vec<u8>>>` is embedded as
an association list with unique keys; `HashMap::{get, insert, remove}` are
embedded as `getEntry`, `insertEntry`, `removeEntry`, which agree with the
hash map's observable behaviour on unique-key lists (`insert` overwrites in
place, `remove` deletes the key's entry).

The async `RwLock`-guarded methods are embedded by explicit state passing:
a method taking `&self` under a write acquisition becomes a function returning
the updated `DB`; a method reading under a read acquisition returns only its
result (the read guard grants no mutation).  `create_new_table`'s lock
acquisition sequence is additionally embedded as an event trace so that the
lock-discipline claim can be stated.

The generic type parameter `T: Serialize + Deserialize` is embedded as a code
`Ty` for the universe of serializable types the repository stores (booleans,
strings, unsigned integers), with `Ty.interp` as its denotation.  The
MessagePack wire format is modelled as a self-describing tagged byte encoding
(`encodeVal` / `parseVal`): format details are abstracted, but the properties
the store relies on — totality of encoding, round-trip fidelity, and decode
failure on a wrong type tag — mirror `rmp_serde`'s behaviour on this universe.
-/

/-- `type DbDataType = Vec<u8>;` — an opaque byte sequence. -/
abbrev DbDataType := List Nat

/-- One table: `HashMap<String, DbDataType>` as an association list. -/
abbrev DbTable := List (String × DbDataType)

/-- The namespace: `HashMap<String, HashMap<String, DbDataType>>`. -/
abbrev DbNamespace := List (String × DbTable)

/-- Models `HashMap::get`: first (unique) entry with the given key. -/
def getEntry {α : Type} : List (String × α) → String → Option α
  | [], _ => none
  | (k', v') :: rest, k => if k' = k then some v' else getEntry rest k

/-- Models `HashMap::insert`: overwrite the key's entry in place, or append. -/
def insertEntry {α : Type} : List (String × α) → String → α → List (String × α)
  | [], k, v => [(k, v)]
  | (k', v') :: rest, k, v =>
    if k' = k then (k, v) :: rest else (k', v') :: insertEntry rest k v

/-- Models `HashMap::remove`: delete the key's (unique) entry. -/
def removeEntry {α : Type} : List (String × α) → String → List (String × α)
  | [], _ => []
  | (k', v') :: rest, k => if k' = k then rest else (k', v') :: removeEntry rest k

/-- Key uniqueness — the invariant every `HashMap` maintains. -/
def wfKeys {α : Type} (m : List (String × α)) : Prop := (m.map Prod.fst).Nodup

instance {α : Type} (m : List (String × α)) : Decidable (wfKeys m) := by
  unfold wfKeys; infer_instance

/-- `struct Error { message: String }` from src/main.rs. -/
structure Error where
  message : String
deriving DecidableEq, Repr

/-- `Error::new`. -/
def Error.new (message : String) : Error := ⟨message⟩

/-- `struct DB { internal_db_table: Arc<RwLock<HashMap<...>>> }`.  The
`Arc<RwLock<...>>` wrapper is the concurrency guard; the state it protects is
the namespace, which is all that is observable. -/
structure DB where
  internal_db_table : DbNamespace
deriving DecidableEq, Repr

/-- Well-formedness: unique table names, and unique field names per table —
the invariant the Rust `HashMap`s maintain by construction. -/
def DB.WF (db : DB) : Prop :=
  wfKeys db.internal_db_table ∧ ∀ p ∈ db.internal_db_table, wfKeys p.2

instance (db : DB) : Decidable (DB.WF db) := by
  unfold DB.WF; infer_instance

/-- The universe of serializable types the repository stores (the generic
`T: Serialize + for<'de> Deserialize<'de>` parameter): booleans, strings and
unsigned integers. -/
inductive Ty where
  | bool
  | str
  | nat
deriving DecidableEq, Repr

/-- Denotation of a type code. -/
@[reducible] def Ty.interp : Ty → Type
  | .bool => Bool
  | .str => String
  | .nat => Nat

instance : (τ : Ty) → DecidableEq τ.interp
  | .bool => inferInstanceAs (DecidableEq Bool)
  | .str => inferInstanceAs (DecidableEq String)
  | .nat => inferInstanceAs (DecidableEq Nat)

/-- Models MessagePack serialization (`rmp_serde::to_vec`) of a value: a
self-describing tagged encoding.  Tags mirror MessagePack markers: booleans
are `0xc2`/`0xc3`, small integers are positive fixints with `0xcf` for the
wide form, strings are marker `0xd9` followed by length and code points. -/
def encodeVal : (τ : Ty) → τ.interp → List Nat
  | .bool, b => [if b then 195 else 194]
  | .str, s => 217 :: s.length :: s.data.map Char.toNat
  | .nat, n => if n < 128 then [n] else [207, n]

/-- Read `n` code points back into characters. -/
def parseChars : Nat → List Nat → Option (List Char × List Nat)
  | 0, l => some ([], l)
  | _ + 1, [] => none
  | n + 1, b :: l =>
    (parseChars n l).map (fun p => (Char.ofNat b :: p.1, p.2))

/-- Models MessagePack deserialization at type `τ`: checks the marker byte and
fails (`none`) when the stored bytes do not carry a value of type `τ`. -/
def parseVal : (τ : Ty) → List Nat → Option (τ.interp × List Nat)
  | .bool, b :: r =>
    if b = 194 then some (false, r) else if b = 195 then some (true, r) else none
  | .bool, [] => none
  | .str, b :: r =>
    if b = 217 then
      match r with
      | n :: r' => (parseChars n r').map (fun p => (String.mk p.1, p.2))
      | [] => none
    else none
  | .str, [] => none
  | .nat, b :: r =>
    if b < 128 then some (b, r)
    else if b = 207 then
      match r with
      | n :: r' => some (n, r')
      | [] => none
    else none
  | .nat, [] => none

/-- Models `rmp_serde::to_vec` for a storable value.  `none` would be a
serialization failure; MessagePack can represent every value of this
universe, so the encoder always succeeds. -/
def rmp_to_vec (τ : Ty) (v : τ.interp) : Option (List Nat) :=
  some (encodeVal τ v)

/-- Models `rmp_serde::from_slice` at type `τ`: the whole slice must decode
as one value of type `τ`; the error carries the library's message. -/
def rmp_from_slice (τ : Ty) (l : List Nat) : Except String τ.interp :=
  match parseVal τ l with
  | some (v, []) => .ok v
  | some (_, _ :: _) => .error "found trailing bytes"
  | none => .error "invalid marker"

/-- `convert_into_data_type` (mod `convert_t_to_db_data_type`): serializes
`data`, panicking — not returning an `Error` — if serialization fails.  The
`[]` arm stands for the `panic!`; it is proved unreachable
(`convert_into_data_type_infallible`). -/
def convert_into_data_type (τ : Ty) (data : τ.interp) : DbDataType :=
  match rmp_to_vec τ data with
  | some val => val
  | none => []

/-- `rebuild_from_data_type`: attempts to reinterpret stored bytes as `τ`,
surfacing a recoverable `Error` on failure. -/
def rebuild_from_data_type (τ : Ty) (serialized_data : DbDataType) :
    Except Error τ.interp :=
  match rmp_from_slice τ serialized_data with
  | .ok val => .ok val
  | .error err => .error (Error.new ("Could not convert data to requested type: " ++ err))

/-- `DB::new`. -/
def DB.new : DB := ⟨[]⟩

/-- `DB::create_new_table`: read-check, then insert an empty table only when
absent (write acquisition); a present table is left untouched. -/
def DB.create_new_table (db : DB) (table_name : String) : DB :=
  if (getEntry db.internal_db_table table_name).isSome then db
  else ⟨insertEntry db.internal_db_table table_name []⟩

/-- `DB::append_data`: under the write acquisition, look the table up; if
present serialize and insert/overwrite the field, otherwise fail and leave
the namespace untouched.  Explicit state passing: the second component is the
state of the namespace after the call. -/
def DB.append_data (τ : Ty) (db : DB) (table_name field_name : String)
    (data : τ.interp) : Except Error Unit × DB :=
  match getEntry db.internal_db_table table_name with
  | some table =>
    (.ok (),
      ⟨insertEntry db.internal_db_table table_name
        (insertEntry table field_name (convert_into_data_type τ data))⟩)
  | none =>
    (.error (Error.new "Attempted to append data to non-existent table."), db)

/-- `DB::read_data`: under a read acquisition (no mutation possible), look up
table then field, then rebuild the bytes as `τ`. -/
def DB.read_data (τ : Ty) (db : DB) (table_name field_name : String) :
    Except Error τ.interp :=
  match getEntry db.internal_db_table table_name with
  | some table =>
    match getEntry table field_name with
    | some serialized_data => rebuild_from_data_type τ serialized_data
    | none => .error (Error.new "Requested Table entry does not exist.")
  | none => .error (Error.new "Requested Table does not exist.")

/-- `DB::read_data` in explicit-state form: the method takes `&self` and only
a read guard, so the state it hands back is the state it received. -/
def DB.read_data_st (τ : Ty) (db : DB) (table_name field_name : String) :
    Except Error τ.interp × DB :=
  (db.read_data τ table_name field_name, db)

/-- `DB::remove_data_entry`: under the write acquisition, remove the field
from the table if the table exists (`get_mut` mutates the table in place,
embedded as overwriting the table's entry); otherwise do nothing. -/
def DB.remove_data_entry (db : DB) (table_name field_name : String) : DB :=
  match getEntry db.internal_db_table table_name with
  | some table =>
    ⟨insertEntry db.internal_db_table table_name (removeEntry table field_name)⟩
  | none => db

/-- `DB::remove_table`: under the write acquisition, remove the whole table
entry (a no-op of `HashMap::remove` when absent). -/
def DB.remove_table (db : DB) (table_name : String) : DB :=
  ⟨removeEntry db.internal_db_table table_name⟩

/-- Byte-sequence encoding of a counted list (MessagePack array/map shape):
the element count followed by the concatenated element encodings. -/
def encCounted {α : Type} (enc : α → List Nat) (l : List α) : List Nat :=
  l.length :: (l.map enc).flatten

/-- Encoding of a string key: length then code points. -/
def encString (s : String) : List Nat :=
  s.length :: s.data.map Char.toNat

/-- Encoding of a raw byte value (MessagePack bin shape): length then bytes. -/
def encBytes (b : List Nat) : List Nat :=
  b.length :: b

/-- Encoding of one field entry: key then bytes. -/
def encFieldEntry (p : String × DbDataType) : List Nat :=
  encString p.1 ++ encBytes p.2

/-- Encoding of one table entry: name then field map. -/
def encTableEntry (p : String × DbTable) : List Nat :=
  encString p.1 ++ encCounted encFieldEntry p.2

/-- Models `rmp_serde::to_vec` on the namespace
`HashMap<String, HashMap<String, Vec<u8>>>`. -/
def encNamespace (ns : DbNamespace) : List Nat :=
  encCounted encTableEntry ns

/-- Take exactly `n` raw bytes. -/
def parseTake : Nat → List Nat → Option (List Nat × List Nat)
  | 0, l => some ([], l)
  | _ + 1, [] => none
  | n + 1, b :: l => (parseTake n l).map (fun p => (b :: p.1, p.2))

/-- Parse a string key. -/
def parseString : List Nat → Option (String × List Nat)
  | [] => none
  | n :: r => (parseChars n r).map (fun p => (String.mk p.1, p.2))

/-- Parse a raw byte value. -/
def parseBytes : List Nat → Option (List Nat × List Nat)
  | [] => none
  | n :: r => parseTake n r

/-- Parse `n` consecutive elements with the given element parser. -/
def parseCount {α : Type} (p : List Nat → Option (α × List Nat)) :
    Nat → List Nat → Option (List α × List Nat)
  | 0, l => some ([], l)
  | n + 1, l =>
    (p l).bind fun q => (parseCount p n q.2).map (fun w => (q.1 :: w.1, w.2))

/-- Parse one field entry. -/
def parseFieldEntry (l : List Nat) : Option ((String × DbDataType) × List Nat) :=
  (parseString l).bind fun q => (parseBytes q.2).map (fun w => ((q.1, w.1), w.2))

/-- Parse one table entry. -/
def parseTableEntry (l : List Nat) : Option ((String × DbTable) × List Nat) :=
  (parseString l).bind fun q =>
    match q.2 with
    | [] => none
    | n :: r => (parseCount parseFieldEntry n r).map (fun w => ((q.1, w.1), w.2))

/-- Models `rmp_serde::from_slice` on the namespace: the whole slice must
decode as one table map. -/
def parseNamespace (l : List Nat) : Option DbNamespace :=
  match l with
  | [] => none
  | n :: r =>
    match parseCount parseTableEntry n r with
    | some (ns, []) => some ns
    | _ => none

/-- `DB::to_vec`: serialize the namespace under a read acquisition. -/
def DB.to_vec (db : DB) : List Nat :=
  encNamespace db.internal_db_table

/-- `DB::to_vec` in explicit-state form: read acquisition only, the state it
hands back is the state it received. -/
def DB.to_vec_st (db : DB) : List Nat × DB :=
  (db.to_vec, db)

/-- `DB::from_slice`: rebuild a `DB` from a snapshot, failing on an invalid
slice. -/
def DB.from_slice (slice : List Nat) : Except Error DB :=
  match parseNamespace slice with
  | some internal_db_table => .ok ⟨internal_db_table⟩
  | none => .error (Error.new "Could not decode slice.")

/-- Nested lookup: the bytes stored at `(table, field)`, if any. -/
def DB.lookup (db : DB) (table_name field_name : String) : Option DbDataType :=
  (getEntry db.internal_db_table table_name).bind (fun t => getEntry t field_name)

/-- Lock events observable on the namespace's `RwLock`. -/
inductive LockEvent where
  | acquireRead
  | releaseRead
  | acquireWrite
  | releaseWrite
deriving DecidableEq, Repr

/-- The sequence of lock events one invocation of `DB::create_new_table`
performs, read off the source: a scoped `read().await` (released at the end
of the inner block), then — only when the table was missing — a
`write().await` held until return. -/
def create_new_table_trace (db : DB) (table_name : String) : List LockEvent :=
  if (getEntry db.internal_db_table table_name).isSome then
    [.acquireRead, .releaseRead]
  else
    [.acquireRead, .releaseRead, .acquireWrite, .releaseWrite]

/-- Read acquisitions outstanding after a prefix of events. -/
def readHeld (l : List LockEvent) : Nat :=
  l.count .acquireRead - l.count .releaseRead

/-- Write acquisitions outstanding after a prefix of events. -/
def writeHeld (l : List LockEvent) : Nat :=
  l.count .acquireWrite - l.count .releaseWrite

/-! ### Helper lemmas: association-list map operations -/

theorem getEntry_insertEntry_self {α : Type} (m : List (String × α)) (k : String) (v : α) :
    getEntry (insertEntry m k v) k = some v := by
  induction m with
  | nil => simp [insertEntry, getEntry]
  | cons p rest ih =>
    obtain ⟨k', v'⟩ := p
    by_cases h : k' = k
    · simp [insertEntry, h, getEntry]
    · simp [insertEntry, h, getEntry, ih]

theorem getEntry_insertEntry_ne {α : Type} (m : List (String × α)) (k k'' : String) (v : α)
    (h : k'' ≠ k) : getEntry (insertEntry m k v) k'' = getEntry m k'' := by
  have hne : k ≠ k'' := Ne.symm h
  induction m with
  | nil => simp [insertEntry, getEntry, hne]
  | cons p rest ih =>
    obtain ⟨k', v'⟩ := p
    by_cases hk : k' = k
    · subst hk
      simp [insertEntry, getEntry, hne]
    · simp only [insertEntry, if_neg hk, getEntry, ih]

theorem insertEntry_self_of_getEntry {α : Type} (m : List (String × α)) (k : String) (v : α)
    (h : getEntry m k = some v) : insertEntry m k v = m := by
  induction m with
  | nil => simp [getEntry] at h
  | cons p rest ih =>
    obtain ⟨k', v'⟩ := p
    by_cases hk : k' = k
    · subst hk
      simp only [getEntry, eq_self_iff_true, if_true, Option.some.injEq] at h
      subst h
      simp [insertEntry]
    · simp only [getEntry, if_neg hk] at h
      simp [insertEntry, hk, ih h]

theorem getEntry_removeEntry_ne {α : Type} (m : List (String × α)) (k k'' : String)
    (h : k'' ≠ k) : getEntry (removeEntry m k) k'' = getEntry m k'' := by
  induction m with
  | nil => simp [removeEntry]
  | cons p rest ih =>
    obtain ⟨k', v'⟩ := p
    by_cases hk : k' = k
    · subst hk
      have hne : ¬ k' = k'' := fun hh => h (hh.symm)
      simp [removeEntry, getEntry, hne]
    · simp only [removeEntry, if_neg hk, getEntry, ih]

theorem getEntry_eq_none_of_not_mem {α : Type} (m : List (String × α)) (k : String)
    (h : k ∉ m.map Prod.fst) : getEntry m k = none := by
  induction m with
  | nil => simp [getEntry]
  | cons p rest ih =>
    obtain ⟨k', v'⟩ := p
    simp only [List.map_cons, List.mem_cons] at h
    push_neg at h
    simp [getEntry, Ne.symm h.1, ih h.2]

theorem getEntry_removeEntry_self {α : Type} (m : List (String × α)) (k : String)
    (hwf : wfKeys m) : getEntry (removeEntry m k) k = none := by
  induction m with
  | nil => simp [removeEntry, getEntry]
  | cons p rest ih =>
    obtain ⟨k', v'⟩ := p
    simp only [wfKeys, List.map_cons, List.nodup_cons] at hwf
    by_cases hk : k' = k
    · subst hk
      simpa [removeEntry] using getEntry_eq_none_of_not_mem rest k' hwf.1
    · simp [removeEntry, hk, getEntry, ih hwf.2]

theorem removeEntry_of_getEntry_none {α : Type} (m : List (String × α)) (k : String)
    (h : getEntry m k = none) : removeEntry m k = m := by
  induction m with
  | nil => simp [removeEntry]
  | cons p rest ih =>
    obtain ⟨k', v'⟩ := p
    by_cases hk : k' = k
    · simp [getEntry, hk] at h
    · simp only [getEntry, if_neg hk] at h
      simp [removeEntry, hk, ih h]

/-! ### Helper lemmas: codec round trips -/

theorem charOfNat_toNat (c : Char) : Char.ofNat c.toNat = c := by
  have h : c.toNat.isValidChar := c.valid
  rcases c with ⟨⟨⟨w, hw⟩⟩, hvalid⟩
  simp only [Char.ofNat, Char.toNat] at *
  rw [dif_pos h]
  rfl

theorem parseChars_encode (cs : List Char) (r : List Nat) :
    parseChars cs.length (cs.map Char.toNat ++ r) = some (cs, r) := by
  induction cs with
  | nil => simp [parseChars]
  | cons c cs ih => simp [parseChars, ih, charOfNat_toNat]

theorem parseVal_encodeVal (τ : Ty) (v : τ.interp) (r : List Nat) :
    parseVal τ (encodeVal τ v ++ r) = some (v, r) := by
  cases τ with
  | bool => cases v <;> simp [encodeVal, parseVal]
  | str =>
    have hc : parseChars v.length (v.data.map Char.toNat ++ r) = some (v.data, r) :=
      parseChars_encode v.data r
    simp [encodeVal, parseVal, hc]
  | nat =>
    by_cases h : v < 128
    · simp [encodeVal, parseVal, h]
    · simp [encodeVal, parseVal, h]

theorem parseVal_encodeNat_ne (τ₂ : Ty) (h : Ty.nat ≠ τ₂) (n : Nat) :
    parseVal τ₂ (encodeVal .nat n) = none := by
  cases τ₂ with
  | bool =>
    by_cases hv : n < 128
    · have h1 : n ≠ 194 := by omega
      have h2 : n ≠ 195 := by omega
      simp [encodeVal, parseVal, hv, h1, h2]
    · simp [encodeVal, parseVal, hv]
  | str =>
    by_cases hv : n < 128
    · have h1 : n ≠ 217 := by omega
      simp [encodeVal, parseVal, hv, h1]
    · simp [encodeVal, parseVal, hv]
  | nat => exact absurd rfl h

theorem parseVal_encodeVal_ne (τ₁ τ₂ : Ty) (h : τ₁ ≠ τ₂) (v : τ₁.interp) :
    parseVal τ₂ (encodeVal τ₁ v) = none := by
  cases τ₁ with
  | bool =>
    cases τ₂ with
    | bool => exact absurd rfl h
    | str => cases v <;> simp [encodeVal, parseVal]
    | nat => cases v <;> simp [encodeVal, parseVal]
  | str =>
    cases τ₂ with
    | bool => simp [encodeVal, parseVal]
    | str => exact absurd rfl h
    | nat => simp [encodeVal, parseVal]
  | nat => exact parseVal_encodeNat_ne τ₂ h v

theorem rmp_from_slice_encodeVal (τ : Ty) (v : τ.interp) :
    rmp_from_slice τ (encodeVal τ v) = .ok v := by
  have h := parseVal_encodeVal τ v []
  rw [List.append_nil] at h
  simp [rmp_from_slice, h]

theorem rebuild_convert (τ : Ty) (v : τ.interp) :
    rebuild_from_data_type τ (convert_into_data_type τ v) = .ok v := by
  simp [convert_into_data_type, rmp_to_vec, rebuild_from_data_type, rmp_from_slice_encodeVal]

theorem rebuild_convert_ne (τ₁ τ₂ : Ty) (h : τ₁ ≠ τ₂) (v : τ₁.interp) :
    rebuild_from_data_type τ₂ (convert_into_data_type τ₁ v) =
      .error (Error.new ("Could not convert data to requested type: " ++ "invalid marker")) := by
  simp [convert_into_data_type, rmp_to_vec, rebuild_from_data_type, rmp_from_slice,
    parseVal_encodeVal_ne τ₁ τ₂ h v]

/-! ### Helper lemmas: snapshot round trip -/

theorem parseTake_append (b r : List Nat) : parseTake b.length (b ++ r) = some (b, r) := by
  induction b with
  | nil => simp [parseTake]
  | cons x b ih => simp [parseTake, ih]

theorem parseString_encString (s : String) (r : List Nat) :
    parseString (encString s ++ r) = some (s, r) := by
  have hc : parseChars s.length (s.data.map Char.toNat ++ r) = some (s.data, r) :=
    parseChars_encode s.data r
  simp [encString, parseString, hc]

theorem parseBytes_encBytes (b r : List Nat) :
    parseBytes (encBytes b ++ r) = some (b, r) := by
  simp [encBytes, parseBytes, parseTake_append]

theorem parseFieldEntry_enc (p : String × DbDataType) (r : List Nat) :
    parseFieldEntry (encFieldEntry p ++ r) = some (p, r) := by
  obtain ⟨s, b⟩ := p
  simp [encFieldEntry, parseFieldEntry, List.append_assoc, parseString_encString,
    parseBytes_encBytes]

theorem parseCount_encode {α : Type} (p : List Nat → Option (α × List Nat))
    (enc : α → List Nat) (H : ∀ x r, p (enc x ++ r) = some (x, r))
    (l : List α) (r : List Nat) :
    parseCount p l.length ((l.map enc).flatten ++ r) = some (l, r) := by
  induction l generalizing r with
  | nil => simp [parseCount]
  | cons x l ih =>
    have hx := H x ((l.map enc).flatten ++ r)
    simp [parseCount, List.append_assoc, hx, ih]

theorem parseTableEntry_enc (q : String × DbTable) (r : List Nat) :
    parseTableEntry (encTableEntry q ++ r) = some (q, r) := by
  obtain ⟨s, tb⟩ := q
  have hc := parseCount_encode parseFieldEntry encFieldEntry
    (fun x r => parseFieldEntry_enc x r) tb r
  simp [encTableEntry, encCounted, parseTableEntry, List.append_assoc,
    parseString_encString, hc]

theorem parseNamespace_enc (ns : DbNamespace) :
    parseNamespace (encNamespace ns) = some ns := by
  have hc := parseCount_encode parseTableEntry encTableEntry
    (fun x r => parseTableEntry_enc x r) ns []
  rw [List.append_nil] at hc
  simp [encNamespace, encCounted, parseNamespace, hc]

theorem mem_of_getEntry_eq_some {α : Type} (m : List (String × α)) (k : String) (v : α)
    (h : getEntry m k = some v) : (k, v) ∈ m := by
  induction m with
  | nil => simp [getEntry] at h
  | cons p rest ih =>
    obtain ⟨k', v'⟩ := p
    by_cases hk : k' = k
    · subst hk
      simp only [getEntry, eq_self_iff_true, if_true, Option.some.injEq] at h
      subst h
      exact List.mem_cons_self _ _
    · simp only [getEntry, if_neg hk] at h
      exact List.mem_cons_of_mem _ (ih h)

/-! ### Claim theorems -/

/-- C1: Write/read round trip — on any store whose namespace contains table
`t`, `append_data` of a value `v : τ.interp` at `(t, f)` followed by
`read_data` at the same type `τ` succeeds and returns `v`. -/
theorem write_read_roundtrip (τ : Ty) (db : DB) (t f : String) (v : τ.interp)
    (h : (getEntry db.internal_db_table t).isSome = true) :
    DB.read_data τ (DB.append_data τ db t f v).2 t f = .ok v := by
  obtain ⟨tb, htb⟩ := Option.isSome_iff_exists.mp h
  simp only [DB.append_data, htb]
  simp only [DB.read_data, getEntry_insertEntry_self]
  exact rebuild_convert τ v

theorem write_read_roundtrip_witness :
    DB.read_data .nat
      (DB.append_data .nat ⟨[("accounts", [])]⟩ "accounts" "balance" 100).2
      "accounts" "balance" = .ok 100 :=
  write_read_roundtrip .nat ⟨[("accounts", [])]⟩ "accounts" "balance" 100 (by decide)

/-- C2: `read_data` failure contract — the table being absent yields the
no-such-table error, a present table with the field absent yields the
no-such-field error, stored bytes that do not decode as `τ` yield the
type-mismatch error; and reading a field back at a type different from the
one it was written at always yields the type-mismatch error, never a value. -/
theorem read_data_error_contract (τ : Ty) (db : DB) (t f : String) :
    (getEntry db.internal_db_table t = none →
      DB.read_data τ db t f = .error (Error.new "Requested Table does not exist.")) ∧
    (∀ tb, getEntry db.internal_db_table t = some tb → getEntry tb f = none →
      DB.read_data τ db t f = .error (Error.new "Requested Table entry does not exist.")) ∧
    (∀ tb bs m, getEntry db.internal_db_table t = some tb → getEntry tb f = some bs →
      rmp_from_slice τ bs = .error m →
      DB.read_data τ db t f =
        .error (Error.new ("Could not convert data to requested type: " ++ m))) ∧
    (∀ τ₁ : Ty, τ₁ ≠ τ → ∀ v : τ₁.interp,
      (getEntry db.internal_db_table t).isSome = true →
      DB.read_data τ (DB.append_data τ₁ db t f v).2 t f =
        .error (Error.new ("Could not convert data to requested type: " ++ "invalid marker"))) := by
  refine ⟨?_, ?_, ?_, ?_⟩
  · intro h
    simp [DB.read_data, h]
  · intro tb htb hf
    simp [DB.read_data, htb, hf]
  · intro tb bs m htb hbs hm
    simp [DB.read_data, htb, hbs, rebuild_from_data_type, hm]
  · intro τ₁ hne v h
    obtain ⟨tb, htb⟩ := Option.isSome_iff_exists.mp h
    simp only [DB.append_data, htb]
    simp only [DB.read_data, getEntry_insertEntry_self]
    exact rebuild_convert_ne τ₁ τ hne v

theorem read_data_error_contract_witness :
    DB.read_data .nat ⟨[]⟩ "t" "f" =
      .error (Error.new "Requested Table does not exist.") ∧
    DB.read_data .nat ⟨[("t", [])]⟩ "t" "f" =
      .error (Error.new "Requested Table entry does not exist.") ∧
    DB.read_data .nat ⟨[("t", [("f", [250])])]⟩ "t" "f" =
      .error (Error.new ("Could not convert data to requested type: " ++ "invalid marker")) ∧
    DB.read_data .nat (DB.append_data .bool ⟨[("t", [])]⟩ "t" "f" true).2 "t" "f" =
      .error (Error.new ("Could not convert data to requested type: " ++ "invalid marker")) :=
  ⟨(read_data_error_contract .nat ⟨[]⟩ "t" "f").1 rfl,
   (read_data_error_contract .nat ⟨[("t", [])]⟩ "t" "f").2.1 [] rfl rfl,
   (read_data_error_contract .nat ⟨[("t", [("f", [250])])]⟩ "t" "f").2.2.1
     [("f", [250])] [250] "invalid marker" rfl rfl rfl,
   (read_data_error_contract .nat ⟨[("t", [])]⟩ "t" "f").2.2.2 .bool
     (by decide) true (by decide)⟩

/-- C3: Snapshot round trip — restoring the serialized snapshot of any store
state succeeds and reconstructs exactly that state: every `(table, field)`
pair with the same bytes, and nothing else. -/
theorem snapshot_roundtrip (db : DB) : DB.from_slice db.to_vec = .ok db := by
  simp [DB.to_vec, DB.from_slice, parseNamespace_enc]

/-- C4: Idempotent table creation — `create_new_table` is a no-op on a
present table (no field is cleared or altered), inserts an empty table when
absent, and calling it twice is the same as calling it once. -/
theorem create_table_idempotent (db : DB) (t : String) :
    ((getEntry db.internal_db_table t).isSome = true → db.create_new_table t = db) ∧
    (getEntry db.internal_db_table t = none →
      (db.create_new_table t).internal_db_table = insertEntry db.internal_db_table t []) ∧
    ((db.create_new_table t).create_new_table t = db.create_new_table t) := by
  refine ⟨?_, ?_, ?_⟩
  · intro h
    simp [DB.create_new_table, h]
  · intro h
    simp [DB.create_new_table, h]
  · by_cases h : (getEntry db.internal_db_table t).isSome = true
    · simp [DB.create_new_table, h]
    · have hn : getEntry db.internal_db_table t = none :=
        Option.not_isSome_iff_eq_none.mp (by simpa using h)
      simp only [DB.create_new_table, hn, Option.isSome_none, Bool.false_eq_true,
        if_false, getEntry_insertEntry_self, Option.isSome_some, if_true]

theorem create_table_idempotent_witness :
    DB.create_new_table ⟨[("t", [("f", [194])])]⟩ "t" = ⟨[("t", [("f", [194])])]⟩ ∧
    (DB.create_new_table ⟨[]⟩ "t").internal_db_table = insertEntry [] "t" [] :=
  ⟨(create_table_idempotent ⟨[("t", [("f", [194])])]⟩ "t").1 (by decide),
   (create_table_idempotent ⟨[]⟩ "t").2.1 rfl⟩

/-- C5: `append_data` precondition and error atomicity — on an absent table
the call fails with the no-such-table error and hands back the namespace
exactly as it received it; on a present table it succeeds and
inserts/overwrites the encoded bytes at the field. -/
theorem append_data_contract (τ : Ty) (db : DB) (t f : String) (v : τ.interp) :
    (getEntry db.internal_db_table t = none →
      DB.append_data τ db t f v =
        (.error (Error.new "Attempted to append data to non-existent table."), db)) ∧
    (∀ tb, getEntry db.internal_db_table t = some tb →
      DB.append_data τ db t f v =
        (.ok (), ⟨insertEntry db.internal_db_table t
          (insertEntry tb f (convert_into_data_type τ v))⟩)) := by
  constructor
  · intro h
    simp [DB.append_data, h]
  · intro tb htb
    simp [DB.append_data, htb]

theorem append_data_contract_witness :
    DB.append_data .bool ⟨[]⟩ "t" "f" true =
      (.error (Error.new "Attempted to append data to non-existent table."), ⟨[]⟩) ∧
    DB.append_data .bool ⟨[("t", [])]⟩ "t" "f" true =
      (.ok (), ⟨insertEntry [("t", [])] "t"
        (insertEntry [] "f" (convert_into_data_type .bool true))⟩) :=
  ⟨(append_data_contract .bool ⟨[]⟩ "t" "f" true).1 rfl,
   (append_data_contract .bool ⟨[("t", [])]⟩ "t" "f" true).2 [] rfl⟩

/-- C6: Table drop cascades — after `remove_table t` on a store with unique
table names, reading any field of `t` at any type yields the no-such-table
error; and removing an absent table is a no-op. -/
theorem remove_table_cascades (db : DB) (t : String) :
    (wfKeys db.internal_db_table →
      ∀ (τ : Ty) (f : String), DB.read_data τ (db.remove_table t) t f =
        .error (Error.new "Requested Table does not exist.")) ∧
    (getEntry db.internal_db_table t = none → db.remove_table t = db) := by
  constructor
  · intro hwf τ f
    simp [DB.remove_table, DB.read_data, getEntry_removeEntry_self db.internal_db_table t hwf]
  · intro h
    simp [DB.remove_table, removeEntry_of_getEntry_none db.internal_db_table t h]

theorem remove_table_cascades_witness :
    DB.read_data .nat (DB.remove_table ⟨[("t", [("f", [1])])]⟩ "t") "t" "f" =
      .error (Error.new "Requested Table does not exist.") ∧
    DB.remove_table ⟨[("u", [])]⟩ "t" = ⟨[("u", [])]⟩ :=
  ⟨(remove_table_cascades ⟨[("t", [("f", [1])])]⟩ "t").1 (by decide) .nat "f",
   (remove_table_cascades ⟨[("u", [])]⟩ "t").2 (by decide)⟩

/-- C7: Deletion is forgiving and minimal — `remove_data_entry t f` leaves
every other table untouched and every other field of `t` with the same bytes,
removes the `(t, f)` entry when the store is well formed, and is a no-op when
`t` or `f` is absent. -/
theorem remove_data_entry_contract (db : DB) (t f : String) :
    (∀ t', t' ≠ t → getEntry (db.remove_data_entry t f).internal_db_table t' =
        getEntry db.internal_db_table t') ∧
    (∀ f', f' ≠ f → DB.lookup (db.remove_data_entry t f) t f' = DB.lookup db t f') ∧
    (DB.WF db → DB.lookup (db.remove_data_entry t f) t f = none) ∧
    (getEntry db.internal_db_table t = none → db.remove_data_entry t f = db) ∧
    (∀ tb, getEntry db.internal_db_table t = some tb → getEntry tb f = none →
      db.remove_data_entry t f = db) := by
  refine ⟨?_, ?_, ?_, ?_, ?_⟩
  · intro t' hne
    unfold DB.remove_data_entry
    cases htb : getEntry db.internal_db_table t with
    | none => rfl
    | some tb => exact getEntry_insertEntry_ne _ _ _ _ hne
  · intro f' hne
    unfold DB.remove_data_entry
    cases htb : getEntry db.internal_db_table t with
    | none => rfl
    | some tb =>
      simp [DB.lookup, getEntry_insertEntry_self, htb, getEntry_removeEntry_ne tb f f' hne]
  · intro hwf
    unfold DB.remove_data_entry
    cases htb : getEntry db.internal_db_table t with
    | none => simp [DB.lookup, htb]
    | some tb =>
      have htbwf : wfKeys tb := hwf.2 (t, tb) (mem_of_getEntry_eq_some _ _ _ htb)
      simp [DB.lookup, getEntry_insertEntry_self, getEntry_removeEntry_self tb f htbwf]
  · intro h
    simp [DB.remove_data_entry, h]
  · intro tb htb hf
    simp [DB.remove_data_entry, htb, removeEntry_of_getEntry_none tb f hf,
      insertEntry_self_of_getEntry db.internal_db_table t tb htb]

theorem remove_data_entry_contract_witness :
    getEntry (DB.remove_data_entry ⟨[("t", [("f", [1])]), ("u", [("g", [2])])]⟩ "t" "f").internal_db_table "u" =
      getEntry [("t", [("f", [1])]), ("u", [("g", [2])])] "u" ∧
    DB.lookup (DB.remove_data_entry ⟨[("t", [("f", [1]), ("g", [2])])]⟩ "t" "f") "t" "g" =
      DB.lookup ⟨[("t", [("f", [1]), ("g", [2])])]⟩ "t" "g" ∧
    DB.lookup (DB.remove_data_entry ⟨[("t", [("f", [1])])]⟩ "t" "f") "t" "f" = none ∧
    DB.remove_data_entry ⟨[("u", [])]⟩ "t" "f" = ⟨[("u", [])]⟩ ∧
    DB.remove_data_entry ⟨[("t", [("g", [2])])]⟩ "t" "f" = ⟨[("t", [("g", [2])])]⟩ :=
  ⟨(remove_data_entry_contract ⟨[("t", [("f", [1])]), ("u", [("g", [2])])]⟩ "t" "f").1 "u" (by decide),
   (remove_data_entry_contract ⟨[("t", [("f", [1]), ("g", [2])])]⟩ "t" "f").2.1 "g" (by decide),
   (remove_data_entry_contract ⟨[("t", [("f", [1])])]⟩ "t" "f").2.2.1 (by decide),
   (remove_data_entry_contract ⟨[("u", [])]⟩ "t" "f").2.2.2.1 rfl,
   (remove_data_entry_contract ⟨[("t", [("g", [2])])]⟩ "t" "f").2.2.2.2 [("g", [2])] rfl rfl⟩

/-- C8: Encode is infallible by contract — for every value of the
serializable universe the modelled `rmp_serde::to_vec` succeeds, so
`convert_into_data_type` returns the encoding through its `Ok` arm and its
panic arm is unreachable; consequently `append_data` on an existing table
never surfaces an encoding `Error`. -/
theorem encode_infallible (τ : Ty) (v : τ.interp) :
    rmp_to_vec τ v = some (convert_into_data_type τ v) ∧
    convert_into_data_type τ v = encodeVal τ v ∧
    (∀ (db : DB) (t f : String), (getEntry db.internal_db_table t).isSome = true →
      (DB.append_data τ db t f v).1 = .ok ()) := by
  refine ⟨rfl, rfl, ?_⟩
  intro db t f h
  obtain ⟨tb, htb⟩ := Option.isSome_iff_exists.mp h
  simp [DB.append_data, htb]

theorem encode_infallible_witness :
    rmp_to_vec .str "alice" = some (convert_into_data_type .str "alice") ∧
    (DB.append_data .str ⟨[("t", [])]⟩ "t" "f" "alice").1 = .ok () :=
  ⟨(encode_infallible .str "alice").1,
   (encode_infallible .str "alice").2.2 ⟨[("t", [])]⟩ "t" "f" (by decide)⟩

/-- C10: Write frame property — when table `t` exists, `append_data` changes
at most the `(t, f)` entry: every other `(table, field)` pair keeps exactly
its bytes, and the `(t, f)` entry becomes the encoding of `v`; `read_data`
and `to_vec` hand the namespace back unchanged. -/
theorem append_data_frame (τ : Ty) (db : DB) (t f : String) (v : τ.interp) (tb : DbTable)
    (h : getEntry db.internal_db_table t = some tb) :
    (∀ t' f', t' ≠ t ∨ f' ≠ f →
      DB.lookup (DB.append_data τ db t f v).2 t' f' = DB.lookup db t' f') ∧
    DB.lookup (DB.append_data τ db t f v).2 t f = some (convert_into_data_type τ v) ∧
    (DB.read_data_st τ db t f).2 = db ∧
    (DB.to_vec_st db).2 = db := by
  refine ⟨?_, ?_, rfl, rfl⟩
  · intro t' f' hne
    simp only [DB.append_data, h]
    cases hne with
    | inl ht' =>
      simp [DB.lookup, getEntry_insertEntry_ne db.internal_db_table t t' _ ht']
    | inr hf' =>
      by_cases ht' : t' = t
      · subst ht'
        simp [DB.lookup, getEntry_insertEntry_self, h,
          getEntry_insertEntry_ne tb f f' _ hf']
      · simp [DB.lookup, getEntry_insertEntry_ne db.internal_db_table t t' _ ht']
  · simp [DB.append_data, h, DB.lookup, getEntry_insertEntry_self]

theorem append_data_frame_witness :
    DB.lookup (DB.append_data .nat ⟨[("t", [("g", [7])])]⟩ "t" "f" 5).2 "t" "g" =
      DB.lookup ⟨[("t", [("g", [7])])]⟩ "t" "g" ∧
    DB.lookup (DB.append_data .nat ⟨[("t", [("g", [7])])]⟩ "t" "f" 5).2 "t" "f" =
      some (convert_into_data_type .nat 5) :=
  ⟨(append_data_frame .nat ⟨[("t", [("g", [7])])]⟩ "t" "f" 5 [("g", [7])] rfl).1
     "t" "g" (Or.inr (by decide)),
   (append_data_frame .nat ⟨[("t", [("g", [7])])]⟩ "t" "f" 5 [("g", [7])] rfl).2.1⟩

/-- C9: `create_new_table`'s two-phase lock discipline — the trace of one
invocation starts with a read acquisition, the read acquisition is fully
released within the first two events (before any write acquisition), a write
acquisition occurs exactly when the table was missing, and after no prefix of
the trace are a read and a write acquisition outstanding simultaneously. -/
theorem create_new_table_lock_discipline (db : DB) (t : String) :
    (∀ n, min (readHeld ((create_new_table_trace db t).take n))
        (writeHeld ((create_new_table_trace db t).take n)) = 0) ∧
    ((create_new_table_trace db t).head? = some .acquireRead) ∧
    ((create_new_table_trace db t).take 2 = [.acquireRead, .releaseRead]) ∧
    (LockEvent.acquireWrite ∈ create_new_table_trace db t ↔
      getEntry db.internal_db_table t = none) := by
  by_cases h : (getEntry db.internal_db_table t).isSome = true
  · have hne : getEntry db.internal_db_table t ≠ none := by
      intro hn
      rw [hn] at h
      simp at h
    refine ⟨?_, ?_, ?_, ?_⟩
    · intro n
      simp only [create_new_table_trace, if_pos h]
      match n with
      | 0 => decide
      | 1 => decide
      | n + 2 =>
        simp only [List.take_succ_cons, List.take_nil]
        decide
    · simp [create_new_table_trace, h]
    · simp [create_new_table_trace, h]
    · simp only [create_new_table_trace, if_pos h]
      constructor
      · intro hmem
        exact absurd hmem (by decide)
      · intro hn
        exact absurd hn hne
  · have hn : getEntry db.internal_db_table t = none :=
      Option.not_isSome_iff_eq_none.mp (by simpa using h)
    refine ⟨?_, ?_, ?_, ?_⟩
    · intro n
      simp only [create_new_table_trace, if_neg h]
      match n with
      | 0 => decide
      | 1 => decide
      | 2 => decide
      | 3 => decide
      | n + 4 =>
        simp only [List.take_succ_cons, List.take_nil]
        decide
    · simp [create_new_table_trace, h]
    · simp [create_new_table_trace, h]
    · simp only [create_new_table_trace, if_neg h]
      constructor
      · intro _
        exact hn
      · intro _
        decide

theorem create_new_table_lock_discipline_witness :
    min (readHeld ((create_new_table_trace ⟨[]⟩ "t").take 3))
      (writeHeld ((create_new_table_trace ⟨[]⟩ "t").take 3)) = 0 ∧
    (LockEvent.acquireWrite ∈ create_new_table_trace ⟨[]⟩ "t" ↔
      getEntry ([] : DbNamespace) "t" = none) :=
  ⟨(create_new_table_lock_discipline ⟨[]⟩ "t").1 3,
   (create_new_table_lock_discipline ⟨[]⟩ "t").2.2.2⟩
